import Mathlib

/-!
Verification development for the tiptap-pages pagination engine.

Shallow embedding, translated from the TypeScript sources:
  - demo/src/extensions/page/core.ts      (binarySearchTextBreak, text-break search)
  - page/computed.ts                      (SplitContext, defaultNodesComputed,
                                           PageComputedContext: run, dedupe, merge,
                                           calculateOrderedListStart)
  - page/types.ts                         (PageState.transform, PageOptions)
  - page/page-extension.ts                (onBeforeCreate validation)

DOM measurement (getDomHeight, createAndCalculateHeight, getBreakPos) is a
browser side effect; it is modelled as an oracle parameter (a pure function
handed to the embedded algorithm), so every theorem quantifies over all
possible measurement outcomes unless a concrete oracle is supplied.
Pixel heights are modelled as integers; JavaScript numeric edge values
(NaN, infinities) are outside the model.
-/

/-- The space character, written via its code point to keep the source ASCII-clean. -/
def spaceC : Char := Char.ofNat 32

/-- Last index of a space inside a list of characters.
Mirrors JavaScript String.prototype.lastIndexOf applied to a single space:
none corresponds to the return value -1. -/
def lastSpaceIdx : List Char → Option Nat
  | [] => none
  | c :: rest =>
    match lastSpaceIdx rest with
    | some i => some (i + 1)
    | none => if c == spaceC then some 0 else none

/-- Outcome of inspecting one binary-search candidate inside
binarySearchTextBreak (core.ts lines 290-329):
reject aborts the whole search with 0 (the two early return 0 statements);
fits means the measured candidate height was within the limit, carrying the
new validBreak value; tooTall means the candidate was measured too tall. -/
inductive BreakProbe where
  | reject
  | fits (v : Nat)
  | tooTall
deriving DecidableEq

/-- One iteration body of the while loop of binarySearchTextBreak
(core.ts lines 290-329), for candidate cut length mid.
measure is the oracle standing for createAndCalculateHeight applied to
the rebuilt node whose last text child is the candidate prefix. -/
def bstbProbe (measure : List Char → Int) (txt : List Char) (limit : Int) (mid : Nat) :
    BreakProbe :=
  let candidate := txt.take mid
  match lastSpaceIdx candidate with
  | none =>
    -- lastSpaceIndex < 0 in the source: accept only past the 7-char minimum
    if 7 < candidate.length then
      -- lastSpaceIndex := candidate.length; the re-slice leaves candidate unchanged
      if measure candidate ≤ limit then BreakProbe.fits candidate.length
      else BreakProbe.tooTall
    else BreakProbe.reject
  | some lsi =>
    let candidate1 := candidate.take lsi
    if candidate1.length = 0 then
      -- empty after trimming to the last space: fall back to a single character
      if 1 < mid then
        let candidate2 := txt.take 1
        if measure candidate2 ≤ limit then BreakProbe.fits candidate2.length
        else BreakProbe.tooTall
      else BreakProbe.reject
    else
      if measure candidate1 ≤ limit then BreakProbe.fits lsi
      else BreakProbe.tooTall

/-- Fuel-indexed while loop of binarySearchTextBreak: state is
(low, high, validBreak); mid is recomputed per iteration exactly as
Math.floor((low + high) / 2). The wrapper supplies enough fuel for the
loop to reach low > high, so the fuel clause is never the exit taken. -/
def bstbGo (measure : List Char → Int) (txt : List Char) (limit : Int) :
    Nat → Nat → Nat → Nat → Nat
  | 0, _, _, validBreak => validBreak
  | fuel + 1, low, high, validBreak =>
    if low ≤ high then
      let mid := (low + high) / 2
      match bstbProbe measure txt limit mid with
      | BreakProbe.reject => 0
      | BreakProbe.fits v => bstbGo measure txt limit fuel (mid + 1) high v
      | BreakProbe.tooTall => bstbGo measure txt limit fuel low (mid - 1) validBreak
    else validBreak

/-- binarySearchTextBreak (core.ts lines 277-332): low starts at 1, high at
the text length, validBreak at 0. Each loop iteration either returns 0,
narrows the interval from the left (low := mid + 1) or from the right
(high := mid - 1); the interval width shrinks by at least one per
iteration, so fullText.length + 1 units of fuel always reach the exit. -/
def binarySearchTextBreak (measure : List Char → Int) (txt : List Char) (limit : Int) : Nat :=
  bstbGo measure txt limit (txt.length + 1) 1 txt.length 0

/-- Where a non-zero break offset can legally sit, per the corrected reading
of the word-boundary property: at a space character of the run, or strictly
inside a token when the inspected prefix had no space at all and exceeded
7 characters, or offset 1 when the run begins with a space (the non-empty
fallback candidate). -/
def GoodBreak (txt : List Char) (v : Nat) : Prop :=
  txt[v]? = some spaceC
    ∨ ((txt.take v).all (fun c => c != spaceC) = true ∧ 7 < v)
    ∨ (v = 1 ∧ txt[0]? = some spaceC)

/-- Concrete run used to refute the word-boundary claim: twenty letters,
no space anywhere. -/
def cexText : List Char := List.replicate 20 'a'

/-- Oracle for the refutation: the rendered height of a candidate is its
character count, so the height limit 15 admits prefixes of up to 15 chars. -/
def lenMeasure : List Char → Int := fun s => (s.length : Int)

/-- ProseMirror document node, as used by the pagination engine: a text leaf
with literal content, or an element with a type name, the extend attribute
(the continuation flag; false models both an absent attribute and false)
and an ordered list of children. Marks and the remaining attributes play no
role in the verified claims and are omitted. -/
inductive PMNode where
  | text (chars : List Char)
  | node (name : String) (extendAttr : Bool) (children : List PMNode)

/-- node.isText of prosemirror-model. -/
def PMNode.isText : PMNode → Bool
  | .text _ => true
  | .node _ _ _ => false

/-- node.type.name; ProseMirror names the text node type "text". -/
def PMNode.typeName : PMNode → String
  | .text _ => "text"
  | .node nm _ _ => nm

/-- Truthiness of node.attrs.extend (text nodes carry no attributes). -/
def PMNode.extendA : PMNode → Bool
  | .text _ => false
  | .node _ e _ => e

/-- The children list of an element node (empty for text leaves). -/
def PMNode.childrenL : PMNode → List PMNode
  | .text _ => []
  | .node _ _ cs => cs

mutual
/-- node.nodeSize of prosemirror-model: a text node occupies one position
per character, an element occupies an opening token, its content, and a
closing token. (Leaf atoms of size 1 do not occur in the claims.) -/
def PMNode.nodeSize : PMNode → Nat
  | .text s => s.length
  | .node _ _ cs => 2 + fragmentSize cs

/-- Fragment.size: the sum of the node sizes of the children. -/
def fragmentSize : List PMNode → Nat
  | [] => 0
  | c :: rest => c.nodeSize + fragmentSize rest
end

/-- node.content.size (zero for text leaves, whose content is empty). -/
def PMNode.contentSize : PMNode → Nat
  | .text _ => 0
  | .node _ _ cs => fragmentSize cs

/-- node.firstChild as an Option. -/
def PMNode.firstChildN : PMNode → Option PMNode
  | .text _ => none
  | .node _ _ cs => cs.head?

/-- node.lastChild as an Option. -/
def PMNode.lastChildN : PMNode → Option PMNode
  | .text _ => none
  | .node _ _ cs => cs[cs.length - 1]?

/-- Fragment.findIndex of prosemirror-model: for a position inside the
fragment, the index of the child covering it and the offset at which that
child starts; at an exact child boundary, the index after the boundary and
the position itself. -/
def findIndexAux (cs : List PMNode) (pos : Nat) (i : Nat) (curPos : Nat) : Nat × Nat :=
  match cs with
  | [] => (i, pos)
  | c :: rest =>
    let e := curPos + c.nodeSize
    if pos ≤ e then
      if pos = e then (i + 1, e) else (i, curPos)
    else findIndexAux rest pos (i + 1) e

/-- Fragment.findIndex entry point. -/
def findIndexF (cs : List PMNode) (pos : Nat) : Nat × Nat := findIndexAux cs pos 0 0

/-- One triple of ResolvedPos.path: the ancestor node at a depth, the child
index taken at that depth, and the absolute position at which that choice
was made (start + offset of the source loop). -/
structure PathEntry where
  node : PMNode
  index : Nat
  posBefore : Nat

/-- Node.resolve of prosemirror-model, restricted to the path it builds:
starting at the document, repeatedly find the child covering the remaining
offset, record (node, index, absolute offset), and descend until the
position falls on a boundary or enters a text leaf. Fuel only bounds the
descent depth; the wrapper passes the node size, which exceeds any path
length. -/
def resolveAux : Nat → PMNode → Nat → Nat → List PathEntry
  | 0, _, _, _ => []
  | fuel + 1, n, parentOffset, start =>
    match n with
    | .text _ => []
    | .node nm ex cs =>
      let (index, offset) := findIndexF cs parentOffset
      let entry : PathEntry := ⟨.node nm ex cs, index, start + offset⟩
      let rem := parentOffset - offset
      if rem = 0 then [entry]
      else
        match cs[index]? with
        | none => [entry]
        | some child =>
          if child.isText then [entry]
          else entry :: resolveAux fuel child (rem - 1) (start + offset + 1)

/-- The resolved path of a document position, as a list of depth triples.
SplitContext.splitResolve (computed.ts lines 538-550) regroups the flat
path array into these very triples, so splitResolve is this function. -/
def PMNode.resolvePath (doc : PMNode) (pos : Nat) : List PathEntry :=
  resolveAux (doc.nodeSize + 1) doc pos 0

/-- ResolvedPos.start(d): the content start of the ancestor at depth d,
which is the recorded absolute position of the previous triple plus one
(zero at the document level). -/
def resStart (path : List PathEntry) (d : Nat) : Nat :=
  if d = 0 then 0 else ((path[d - 1]?).map PathEntry.posBefore).getD 0 + 1

mutual
/-- doc.descendants / nodesBetween with every callback returning true:
each descendant paired with the position just before it, in document
order. The dedupe and ordered-list counting loops traverse exactly this
list. -/
def descList : PMNode → Nat → List (PMNode × Nat)
  | .text _, _ => []
  | .node _ _ cs, base => descListF cs base

/-- Descendants of a fragment whose content starts at the given base
position. -/
def descListF : List PMNode → Nat → List (PMNode × Nat)
  | [], _ => []
  | c :: rest, base =>
    (c, base) :: (descList c (base + 1) ++ descListF rest (base + c.nodeSize))
end

/-- All descendants of a document with their positions. -/
def PMNode.descendantsWithPos (doc : PMNode) : List (PMNode × Nat) := descList doc 0

/-- Direct children of a fragment paired with their absolute positions,
given the absolute position at which the fragment content starts. Used
only to state what the specification counts (items of one list). -/
def childPositions : List PMNode → Nat → List (PMNode × Nat)
  | [], _ => []
  | c :: rest, base => (c, base) :: childPositions rest (base + c.nodeSize)

/-- The per-item ancestor check of calculateOrderedListStart (computed.ts
lines 796-803 and 815-822): resolve the item position and walk the ancestor
depths from the innermost down to 1 looking for an orderedList. The path
entries from index 1 on are exactly node(1) .. node(depth). -/
def hasOrderedListAncestor (doc : PMNode) (pos : Nat) : Bool :=
  ((doc.resolvePath pos).drop 1).any (fun e => e.node.typeName == "orderedList")

/-- Modelled from the spec: the innermost enclosing ordered list of a
position ("counting list items ... within the same logical list" needs
the enclosing list first). The helper the source calls,
findParentNodeClosestToPos of utils/node, is not among the provided
sources; it is the standard closest-ancestor-satisfying-predicate walk:
scan the resolved depths from the innermost down to depth 1 and return
the first orderedList ancestor with its content start,
ResolvedPos.start at that depth. -/
def scanForOL (path : List PathEntry) : Nat → Option (PMNode × Nat)
  | 0 => none
  | d + 1 =>
    match path[d + 1]? with
    | some e =>
      if e.node.typeName == "orderedList" then some (e.node, resStart path (d + 1))
      else scanForOL path d
    | none => scanForOL path d

/-- The parentOrderedList lookup of calculateOrderedListStart. -/
def findParentOL (doc : PMNode) (pos : Nat) : Option (PMNode × Nat) :=
  scanForOL (doc.resolvePath pos) ((doc.resolvePath pos).length - 1)

/-- The sequence-origin walk of the non-extend branch (computed.ts lines
807-811): while the node just before the current content start is still
inside an orderedList, jump to that list's content start. Each jump
strictly decreases the position, so fuel currentPos + 1 reaches the exit
the source loop reaches. -/
def walkBack (doc : PMNode) : Nat → Nat → Nat
  | 0, cur => cur
  | fuel + 1, cur =>
    if 0 < cur then
      let path := doc.resolvePath (cur - 1)
      match path[path.length - 1]? with
      | some e =>
        if e.node.typeName == "orderedList" then
          walkBack doc fuel (resStart path (path.length - 1))
        else cur
      | none => cur
    else cur

/-- The descendants counting pass of calculateOrderedListStart: listItem
nodes whose position lies in [lo, hi) and which have an orderedList
ancestor. The extend branch uses lo = 0 (its source has no lower bound;
positions are never negative), the other branch uses the walked-back
origin. -/
def countOLItems (doc : PMNode) (lo hi : Nat) : Nat :=
  ((doc.descendantsWithPos).filter (fun it =>
    it.1.typeName == "listItem" && decide (lo ≤ it.2) && decide (it.2 < hi)
      && hasOrderedListAncestor doc it.2)).length

/-- calculateOrderedListStart (computed.ts lines 783-828). The listNode
parameter of the source is unused there and dropped here. -/
def calculateOrderedListStart (doc : PMNode) (splitPos : Nat) : Nat :=
  match findParentOL doc splitPos with
  | none => 1
  | some (ol, olStart) =>
    if ol.extendA then countOLItems doc 0 splitPos + 1
    else countOLItems doc (walkBack doc (olStart + 1) olStart) splitPos + 1

/-- Counterexample document for the ordered-list start claim: one page
holding one ordered list A with two items; the first item contains a
paragraph and a nested ordered list with two further items. -/
def exOLN : PMNode :=
  PMNode.node "orderedList" false
    [PMNode.node "listItem" false [PMNode.node "paragraph" false [PMNode.text "b".data]],
     PMNode.node "listItem" false [PMNode.node "paragraph" false [PMNode.text "c".data]]]

/-- The outer ordered list A of the counterexample: item one wraps a
paragraph plus the nested list, item two a plain paragraph. A is not a
continuation (extend = false), so its sequence origin is itself. -/
def exOL : PMNode :=
  PMNode.node "orderedList" false
    [PMNode.node "listItem" false [PMNode.node "paragraph" false [PMNode.text "a".data], exOLN],
     PMNode.node "listItem" false [PMNode.node "paragraph" false [PMNode.text "d".data]]]

/-- The counterexample document: doc > page > exOL. The split position 19
is the boundary inside A just before its second item. -/
def exDoc3 : PMNode := PMNode.node "doc" false [PMNode.node "page" false [exOL]]

/-- SplitInfo of types.ts: a discovered boundary, position plus depth. -/
structure SplitInfoM where
  pos : Nat
  depth : Nat
deriving DecidableEq

/-- SplitContext (computed.ts lines 439-558): the document, the pagination
height budget, the accumulated height, the default paragraph height, and
the boundary found so far. Heights are integer pixels. -/
structure SplitCtxM where
  doc : PMNode
  height : Int
  accumulatedHeight : Int
  paragraphDefaultHeight : Int
  pageBoundary : Option SplitInfoM

/-- SplitContext.isOverflow (computed.ts lines 495-497):
accumulated + candidate > budget. -/
def SplitCtxM.isOverflow (c : SplitCtxM) (h : Int) : Bool :=
  decide (c.accumulatedHeight + h > c.height)

/-- SplitContext.addHeight. -/
def SplitCtxM.addHeight (c : SplitCtxM) (h : Int) : SplitCtxM :=
  { c with accumulatedHeight := c.accumulatedHeight + h }

/-- SplitContext.setBoundary. -/
def SplitCtxM.setBoundary (c : SplitCtxM) (pos depth : Nat) : SplitCtxM :=
  { c with pageBoundary := some ⟨pos, depth⟩ }

/-- SplitContext.splitResolve: the source flattens resolve(pos).path and
regroups it in threes; the path is already a list of such triples here. -/
def SplitCtxM.splitResolve (c : SplitCtxM) (pos : Nat) : List PathEntry :=
  c.doc.resolvePath pos

/-- JavaScript truthiness of the number-or-null returned by getBreakPos:
null and 0 are falsy. -/
def jsTruthyNat : Option Nat → Bool
  | none => false
  | some n => n != 0

/-- The PARAGRAPH decision function of defaultNodesComputed (computed.ts
lines 377-407). pHeight stands for getDomHeight(dom) and breakOracle for
the value getBreakPos would produce, both DOM measurements; isFirstChild
stands for the object identity test parent.firstChild === node. Returns
the updated context and the recursion flag (always false here). -/
def paragraphComputed (ctx : SplitCtxM) (pHeight : Int) (breakOracle : Option Nat)
    (pos : Nat) (isFirstChild : Bool) : SplitCtxM × Bool :=
  if !(ctx.isOverflow pHeight) then (ctx.addHeight pHeight, false)
  else
    let chunks := ctx.splitResolve pos
    let point : Option Nat :=
      if ctx.paragraphDefaultHeight < pHeight then breakOracle else none
    if jsTruthyNat point then
      (ctx.setBoundary (pos + point.getD 0) chunks.length, false)
    else if isFirstChild then
      -- chunks[chunks.length - 2] is undefined when fewer than two triples
      match (if 2 ≤ chunks.length then chunks[chunks.length - 2]? else none) with
      | some ch =>
        -- the source also requires chunk[2] to be a truthy number: 0 fails
        if ch.posBefore != 0 then (ctx.setBoundary ch.posBefore (chunks.length - 2), false)
        else (ctx, false)
      | none => (ctx, false)
    else (ctx.setBoundary pos (chunks.length - 1), false)

/-- Document for the paragraph-boundary counterexample: a single page whose
first child is the paragraph being decided (position 1). -/
def doc1 : PMNode :=
  PMNode.node "doc" false
    [PMNode.node "page" false [PMNode.node "paragraph" false [PMNode.text "aaaa".data]]]

/-- Document for the paragraph-boundary witness: the decided paragraph is
the second child of the page (position 4). -/
def doc2 : PMNode :=
  PMNode.node "doc" false
    [PMNode.node "page" false
      [PMNode.node "paragraph" false [PMNode.text "a".data],
       PMNode.node "paragraph" false [PMNode.text "b".data]]]

/-- Check whether a type name contains the substring "Extend", the
EXTEND constant of node-names.ts, as String.prototype.includes does. -/
def nameContainsExtend (s : String) : Bool :=
  (List.range (s.data.length + 1)).any (fun i => ("Extend".data).isPrefixOf (s.data.drop i))

/-- The join-depth decision of one mergeDefaultDocument iteration
(computed.ts lines 742-751), as a function of the current document. The
source guard lastChild !== firstChild is an object-identity test; with at
least two children those are distinct objects, which is what having at
least two pages means here. -/
def mergeJoinDepth (doc : PMNode) : Nat :=
  match doc with
  | .text _ => 1
  | .node _ _ pages =>
    if 2 ≤ pages.length then
      let fc := (pages[pages.length - 1]?).bind PMNode.firstChildN
      let preLast := (pages[pages.length - 2]?).bind PMNode.lastChildN
      let canMergeDeep :=
        match fc with
        | some f =>
          (decide (preLast.map PMNode.typeName = some f.typeName)
            || nameContainsExtend f.typeName) && f.extendA
        | none => false
      if canMergeDeep then 2 else 1
    else 1

/-- Counterexample document for the join-depth claim: the previous page
ends in a paragraph, the last page opens with a continuation-flagged
NodeExtend block (the CASSIE_BLOCK_EXTEND type, whose name contains
"Extend" without matching the predecessor's kind). -/
def exDoc4 : PMNode :=
  PMNode.node "doc" false
    [PMNode.node "page" false [PMNode.node "paragraph" false [PMNode.text "x".data]],
     PMNode.node "page" false
       [PMNode.node "NodeExtend" true [PMNode.node "paragraph" false [PMNode.text "y".data]]]]

/-- Witness document for the amended join-depth rule: matching paragraph
kinds with the continuation flag set on the last page's first child. -/
def exDoc4w : PMNode :=
  PMNode.node "doc" false
    [PMNode.node "page" false [PMNode.node "paragraph" false [PMNode.text "x".data]],
     PMNode.node "page" false [PMNode.node "paragraph" true [PMNode.text "y".data]]]

/-- The empty paragraph produced by schema.nodes.paragraph.createAndFill. -/
def emptyParagraphM : PMNode := PMNode.node "paragraph" false []

mutual
/-- Insert a node at a content offset inside an element (tr.insert of the
host runtime, for the structurally valid positions the engine uses).
Insertion inside a text leaf does not occur in the verified claims. -/
def insertIntoNode : PMNode → Nat → PMNode → PMNode
  | .text s, _, _ => .text s
  | .node nm ex cs, p, newN => .node nm ex (insertAtFragment cs p newN)

/-- Insert a node into a fragment at a fragment-relative position: at a
boundary between children it becomes a new sibling, strictly inside a
child it descends. -/
def insertAtFragment : List PMNode → Nat → PMNode → List PMNode
  | [], _, newN => [newN]
  | c :: rest, p, newN =>
    if p = 0 then newN :: c :: rest
    else if p < c.nodeSize then insertIntoNode c (p - 1) newN :: rest
    else c :: insertAtFragment rest (p - c.nodeSize) newN
end

/-- tr.insert(pos, node) at a document position. -/
def insertAt (doc : PMNode) (p : Nat) (newN : PMNode) : PMNode :=
  insertIntoNode doc p newN

/-- Truthiness of !tr.doc.firstChild?.content.size: true when there is no
first page or its content is empty. -/
def emptyFirstCond (d : PMNode) : Bool :=
  match d.firstChildN with
  | none => true
  | some fc => fc.contentSize == 0

/-- Truthiness of this.prevState.doc.firstChild?.content.size. -/
def prevFirstCond (d : PMNode) : Bool :=
  match d.firstChildN with
  | none => false
  | some fc => fc.contentSize != 0

/-- The empty-page repair at the end of PageComputedContext.run
(computed.ts lines 612-618): when the current first page is empty but the
pre-edit first page was not, insert an empty paragraph at position
doc.content.size - 1. -/
def runFinalStep (trDoc prevDoc : PMNode) : PMNode :=
  if emptyFirstCond trDoc && prevFirstCond prevDoc then
    insertAt trDoc (trDoc.contentSize - 1) emptyParagraphM
  else trDoc

/-- Counterexample document for the empty-leading-page claim: the first
page is empty, a second page holds a paragraph. -/
def exDoc6 : PMNode :=
  PMNode.node "doc" false
    [PMNode.node "page" false [],
     PMNode.node "page" false [PMNode.node "paragraph" false [PMNode.text "x".data]]]

/-- Pre-edit document whose first page had content. -/
def exPrev6 : PMNode :=
  PMNode.node "doc" false
    [PMNode.node "page" false [PMNode.node "paragraph" false [PMNode.text "x".data]]]

/-- Single-page empty document for the amended empty-page repair. -/
def exW6 : PMNode := PMNode.node "doc" false [PMNode.node "page" false []]

/-- JavaScript String.prototype.includes on character lists: the needle
occurs as a contiguous substring of the haystack. -/
def strIncludes (haystack needle : List Char) : Bool :=
  (List.range (haystack.length + 1)).any (fun i => needle.isPrefixOf (haystack.drop i))

/-- The data removeElementsWithDuplicateId reads off each of the two nodes
sharing an id: position, nodeSize, textContent, and the length of the
children array. -/
structure DupNodeData where
  pos : Nat
  nodeSize : Nat
  textContent : List Char
  childCount : Nat
deriving DecidableEq

/-- The operation removeElementsWithDuplicateId queues for a duplicated id:
delete the range of one node, or regenerate its id. -/
inductive DedupeOp where
  | deleteRange (rangeFrom rangeTo : Nat)
  | changeId (rangeFrom : Nat)
deriving DecidableEq

/-- The pair decision of removeElementsWithDuplicateId (computed.ts lines
636-655) for a stored occurrence oldD and a newly met occurrence newD of
the same id: pick deleteNode and preserveNode by node size, queue a delete
when the preserved node's text contains the delete candidate's text and
the candidate has children, otherwise queue an id regeneration. Returns
the queued operation and the node kept in the id map. -/
def dedupeDecision (oldD newD : DupNodeData) : DedupeOp × DupNodeData :=
  let pair := if newD.nodeSize < oldD.nodeSize then (oldD, newD) else (newD, oldD)
  let deleteN := pair.1
  let preserveN := pair.2
  let shouldDelete :=
    strIncludes preserveN.textContent deleteN.textContent && decide (0 < deleteN.childCount)
  (if shouldDelete then
     DedupeOp.deleteRange (deleteN.pos + 1) (deleteN.pos + deleteN.nodeSize + 1)
   else DedupeOp.changeId deleteN.pos,
   preserveN)

/-- The Hello node of the dedupe failing input: the smaller duplicate. -/
def exDupOld : DupNodeData := ⟨1, 10, "Hello".data, 1⟩

/-- The Hello-world node of the dedupe failing input: the larger duplicate,
whose text contains the smaller node's text. -/
def exDupNew : DupNodeData := ⟨20, 18, "Hello world".data, 1⟩

/-- A JavaScript value as the configuration checks see it: missing
(undefined or null), a number, or some other-typed value. NaN and the
infinities are outside the integer model; the validation claims do not
depend on them. -/
inductive JSValue where
  | undef
  | null
  | num (v : Int)
  | str (s : String)
  | boolean (b : Bool)
deriving DecidableEq

/-- undefined or null. -/
def JSValue.isNullish : JSValue → Bool
  | .undef => true
  | .null => true
  | _ => false

/-- typeof v === number. -/
def JSValue.isNumberType : JSValue → Bool
  | .num _ => true
  | _ => false

/-- The comparison v <= 0 in a context already known to be a number. -/
def JSValue.numLe0 : JSValue → Bool
  | .num v => decide (v ≤ 0)
  | _ => false

/-- A positive number: what the claim calls a valid dimension. -/
def JSValue.isPositiveNumber : JSValue → Bool
  | .num v => decide (0 < v)
  | _ => false

/-- The two required options as PageExtension.onBeforeCreate receives
them, before any validation. -/
structure RawPageOptions where
  bodyHeight : JSValue
  bodyWidth : JSValue
deriving DecidableEq

/-- The validation sequence of PageExtension.onBeforeCreate
(page-extension.ts lines 93-124): nullish checks for each dimension, then
the combined type-and-positivity checks, in source order; an error models
the thrown exception, which prevents buildComputedHtml and every later
pagination pass from running. -/
def onBeforeCreateCheck (o : RawPageOptions) : Except String Unit :=
  if o.bodyHeight.isNullish then
    Except.error "PageExtension: bodyHeight is required but not provided."
  else if o.bodyWidth.isNullish then
    Except.error "PageExtension: bodyWidth is required but not provided."
  else if !o.bodyHeight.isNumberType || o.bodyHeight.numLe0 then
    Except.error "PageExtension: bodyHeight must be a positive number."
  else if !o.bodyWidth.isNumberType || o.bodyWidth.numLe0 then
    Except.error "PageExtension: bodyWidth must be a positive number."
  else Except.ok ()

/-- The page configuration carried by PageState. transform never reads or
writes it, so a representative record of the numeric fields suffices. -/
structure PageOptionsM where
  bodyHeight : Int
  bodyWidth : Int
  headerHeight : Int
  footerHeight : Int
deriving DecidableEq

/-- A transaction as PageState.transform reads it: only its meta map
matters. Values are the booleans the plugin stores under the three keys. -/
structure TransactionM where
  meta : List (String × Bool)

/-- tr.getMeta(key). -/
def TransactionM.getMeta (tr : TransactionM) (key : String) : Option Bool :=
  tr.meta.lookup key

/-- PageState (types.ts lines 228-261). -/
structure PageStateM where
  bodyOptions : PageOptionsM
  deleting : Bool
  inserting : Bool
  splitPage : Bool
deriving DecidableEq

/-- PageState.transform (types.ts lines 249-260): reread the three
transient flags from the transaction meta, defaulting each to false, and
keep bodyOptions as is. -/
def PageStateM.transform (s : PageStateM) (tr : TransactionM) : PageStateM :=
  let splitPage := (tr.getMeta "splitPage").getD false
  let inserting := (tr.getMeta "inserting").getD false
  let deleting := (tr.getMeta "deleting").getD false
  ⟨s.bodyOptions, deleting, inserting, splitPage⟩

/-- A found last space index is a valid index of a space character. -/
theorem lastSpaceIdx_some {l : List Char} {i : Nat} (h : lastSpaceIdx l = some i) :
    i < l.length ∧ l[i]? = some spaceC := by
  induction l generalizing i with
  | nil => simp [lastSpaceIdx] at h
  | cons c rest ih =>
    rw [lastSpaceIdx] at h
    cases hr : lastSpaceIdx rest with
    | some j =>
      rw [hr] at h
      obtain ⟨h1, h2⟩ := ih hr
      have hij : i = j + 1 := by
        cases h
        rfl
      subst hij
      refine ⟨by simpa using h1, by simpa using h2⟩
    | none =>
      rw [hr] at h
      by_cases hc : c == spaceC
      · rw [if_pos hc] at h
        have hi : i = 0 := by
          cases h
          rfl
        subst hi
        have : c = spaceC := by simpa using hc
        simp [this]
      · rw [if_neg hc] at h
        cases h

/-- The last-space search returns none exactly when no character is a
space. -/
theorem lastSpaceIdx_none_iff (l : List Char) :
    lastSpaceIdx l = none ↔ l.all (fun c => c != spaceC) = true := by
  induction l with
  | nil => simp [lastSpaceIdx]
  | cons c rest ih =>
    rw [lastSpaceIdx]
    cases hr : lastSpaceIdx rest with
    | some j =>
      simp only [List.all_cons, Bool.and_eq_true]
      constructor
      · intro h
        cases h
      · intro ⟨_, hall⟩
        rw [← ih] at hall
        rw [hall] at hr
        cases hr
    | none =>
      by_cases hc : c == spaceC
      · rw [if_pos hc]
        have : c = spaceC := by simpa using hc
        simp [this]
      · rw [if_neg hc]
        simp only [List.all_cons, Bool.and_eq_true]
        constructor
        · intro _
          exact ⟨by simpa using hc, (ih).mp hr⟩
        · intro _
          trivial

/-- Taking again with the length of a take changes nothing. -/
theorem take_length_take (l : List Char) (n : Nat) :
    l.take (l.take n).length = l.take n := by
  by_cases h : n ≤ l.length
  · rw [List.length_take, Nat.min_eq_left h]
  · rw [List.length_take, Nat.min_eq_right (by omega), List.take_length,
      List.take_of_length_le (by omega)]

/-- Whenever a probed candidate fits and updates validBreak, the new value
is a legal break offset: at a space, past seven characters without any
space in the prefix, or the leading-space fallback. -/
theorem bstbProbe_fits_good {measure : List Char → Int} {txt : List Char} {limit : Int}
    {mid v : Nat} (h : bstbProbe measure txt limit mid = BreakProbe.fits v) :
    GoodBreak txt v := by
  rw [bstbProbe] at h
  cases hls : lastSpaceIdx (txt.take mid) with
  | none =>
    rw [hls] at h
    by_cases h7 : 7 < (txt.take mid).length
    · rw [if_pos h7] at h
      by_cases hm : measure (txt.take mid) ≤ limit
      · rw [if_pos hm] at h
        have hv : v = (txt.take mid).length := by
          cases h
          rfl
        subst hv
        refine Or.inr (Or.inl ⟨?_, h7⟩)
        rw [take_length_take]
        exact (lastSpaceIdx_none_iff (txt.take mid)).mp hls
      · rw [if_neg hm] at h
        cases h
    · rw [if_neg h7] at h
      cases h
  | some lsi =>
    rw [hls] at h
    dsimp only at h
    obtain ⟨hlt, hsp⟩ := lastSpaceIdx_some hls
    by_cases hz : ((txt.take mid).take lsi).length = 0
    · rw [if_pos hz] at h
      have hlsi0 : lsi = 0 := by
        rw [List.length_take] at hz
        omega
      subst hlsi0
      by_cases h1m : 1 < mid
      · rw [if_pos h1m] at h
        by_cases hm : measure (txt.take 1) ≤ limit
        · rw [if_pos hm] at h
          have hv : v = (txt.take 1).length := by
            cases h
            rfl
          subst hv
          have hpos : 0 < txt.length := by
            rw [List.length_take] at hlt
            omega
          have ht0 : txt[0]? = some spaceC := by
            rw [← List.getElem?_take_of_lt (show 0 < mid by omega)]
            exact hsp
          refine Or.inr (Or.inr ⟨?_, ht0⟩)
          rw [List.length_take]
          omega
        · rw [if_neg hm] at h
          cases h
      · rw [if_neg h1m] at h
        cases h
    · rw [if_neg hz] at h
      by_cases hm : measure ((txt.take mid).take lsi) ≤ limit
      · rw [if_pos hm] at h
        have hv : v = lsi := by
          cases h
          rfl
        subst hv
        refine Or.inl ?_
        rw [← List.getElem?_take_of_lt (show v < mid by
          rw [List.length_take] at hlt
          omega)]
        exact hsp
      · rw [if_neg hm] at h
        cases h

/-- Loop invariant of the text-break binary search: starting from a
validBreak that is zero or legal, the loop returns zero or a legal break
offset. -/
theorem bstbGo_good (measure : List Char → Int) (txt : List Char) (limit : Int) :
    ∀ fuel low high vb, (vb = 0 ∨ GoodBreak txt vb) →
      (bstbGo measure txt limit fuel low high vb = 0
        ∨ GoodBreak txt (bstbGo measure txt limit fuel low high vb)) := by
  intro fuel
  induction fuel with
  | zero =>
    intro low high vb h
    simpa [bstbGo] using h
  | succ f ih =>
    intro low high vb h
    rw [bstbGo]
    by_cases hlh : low ≤ high
    · rw [if_pos hlh]
      dsimp only
      cases hp : bstbProbe measure txt limit ((low + high) / 2) with
      | reject =>
        simp only [hp]
        exact Or.inl trivial
      | fits v =>
        simp only [hp]
        exact ih ((low + high) / 2 + 1) high v (Or.inr (bstbProbe_fits_good hp))
      | tooTall =>
        simp only [hp]
        exact ih low ((low + high) / 2 - 1) vb h
    · rw [if_neg hlh]
      exact h

/-- C2 (corrected). The claim said a non-zero offset returned by
binarySearchTextBreak never falls inside a word unless the entire run is
shorter than 7 characters. The code in fact accepts a mid-token offset
whenever the inspected prefix contains no space and is longer than 7
characters, regardless of the run length, so the exception must be stated
for the no-space prefix rather than for short runs: every non-zero result
is a space position of the run, or a mid-token offset greater than 7 whose
prefix holds no space at all, or the offset 1 fallback of a run starting
with a space. -/
theorem C2_break_offsets (measure : List Char → Int) (txt : List Char) (limit : Int)
    (v : Nat) (hr : binarySearchTextBreak measure txt limit = v) (hv : v ≠ 0) :
    GoodBreak txt v := by
  rw [binarySearchTextBreak] at hr
  rcases bstbGo_good measure txt limit (txt.length + 1) 1 txt.length 0 (Or.inl rfl) with h0 | hg
  · rw [hr] at h0
    exact absurd h0 hv
  · rw [hr] at hg
    exact hg

/-- Witness for C2_break_offsets: on the run "ab cd" with the
character-count oracle and limit 2 the search returns offset 2, which the
theorem certifies as a legal break; indeed character 2 of the run is the
space. -/
theorem C2_break_offsets_witness : GoodBreak ("ab cd".data) 2 :=
  C2_break_offsets lenMeasure ("ab cd".data) 2 2 (by decide) (by decide)

/-- Counterexample to C2 as stated: a run of twenty letters with no space,
measured one pixel per character against limit 15, yields break offset 15.
That offset is strictly inside the single twenty-character token (neither
txt[15] nor txt[14] is a space) and the run is not shorter than the
7-character minimum, so the claimed word-boundary guarantee fails. -/
theorem C2_counterexample :
    binarySearchTextBreak lenMeasure cexText 15 = 15
      ∧ ¬(cexText[15]? = some spaceC)
      ∧ ¬(cexText[14]? = some spaceC)
      ∧ 7 ≤ cexText.length := by
  decide

/-- C8 (confirmed). Whenever the search inspects a candidate prefix that
contains no space boundary and does not exceed 7 characters, the whole run
is rejected: the loop returns 0 immediately, whatever the oracle, the
limit, the pending validBreak and the remaining fuel. Acceptance of a
no-space prefix therefore happens only past 7 characters (the other branch
of the same source conditional). -/
theorem C8_short_prefix_rejects (measure : List Char → Int) (txt : List Char) (limit : Int)
    (fuel low high vb : Nat) (hf : 0 < fuel) (hlh : low ≤ high) (hhl : high ≤ txt.length)
    (hns : (txt.take ((low + high) / 2)).all (fun c => c != spaceC) = true)
    (h7 : (low + high) / 2 ≤ 7) :
    bstbGo measure txt limit fuel low high vb = 0 := by
  obtain ⟨f, rfl⟩ : ∃ f, fuel = f + 1 := ⟨fuel - 1, by omega⟩
  rw [bstbGo, if_pos hlh]
  dsimp only
  have hmid : ((low + high) / 2) ≤ txt.length := by omega
  have hreject : bstbProbe measure txt limit ((low + high) / 2) = BreakProbe.reject := by
    rw [bstbProbe, (lastSpaceIdx_none_iff _).mpr hns]
    dsimp only
    rw [if_neg (by rw [List.length_take]; omega)]
  rw [hreject]

/-- Witness for C8_short_prefix_rejects: a ten-letter spaceless run probed
at mid 5 with the character-count oracle is rejected outright. -/
theorem C8_short_prefix_rejects_witness :
    bstbGo lenMeasure (List.replicate 10 'a') 0 1 1 10 0 = 0 :=
  C8_short_prefix_rejects lenMeasure (List.replicate 10 'a') 0 1 1 10 0
    (by decide) (by decide) (by decide) (by decide) (by decide)

/-- C9 (confirmed). For every SplitContext and candidate height,
isOverflow returns true exactly when the accumulated height plus the
candidate strictly exceeds the pagination budget height. -/
theorem C9_isOverflow (c : SplitCtxM) (h : Int) :
    c.isOverflow h = true ↔ c.accumulatedHeight + h > c.height := by
  simp [SplitCtxM.isOverflow]

/-- C10 (confirmed). PageState.transform keeps bodyOptions identical and
recomputes only the three transient flags from the transaction meta, each
defaulting to false when its key is absent. -/
theorem C10_transform (s : PageStateM) (tr : TransactionM) :
    (s.transform tr).bodyOptions = s.bodyOptions
      ∧ (s.transform tr).deleting = ((tr.getMeta "deleting").getD false)
      ∧ (s.transform tr).inserting = ((tr.getMeta "inserting").getD false)
      ∧ (s.transform tr).splitPage = ((tr.getMeta "splitPage").getD false) :=
  ⟨rfl, rfl, rfl, rfl⟩

/-- C7 (confirmed). Initialization validation succeeds (no exception is
thrown, so the extension goes on to build its measurement surface) exactly
when both bodyHeight and bodyWidth are positive numbers; every missing
(undefined or null), non-numeric, or non-positive dimension is rejected
before any pagination pass can run. -/
theorem C7_validation (o : RawPageOptions) :
    (onBeforeCreateCheck o).isOk = true
      ↔ (o.bodyHeight.isPositiveNumber = true ∧ o.bodyWidth.isPositiveNumber = true) := by
  obtain ⟨h, w⟩ := o
  cases h <;> cases w <;>
    simp [onBeforeCreateCheck, JSValue.isNullish, JSValue.isNumberType, JSValue.numLe0,
      JSValue.isPositiveNumber, Except.isOk, Except.toBool]
  all_goals (split_ifs <;> simp_all)

/-- C1 (code bug). At the failing input the dedupe pair decision keeps the
smaller node (nodeSize 10, text Hello) and merely regenerates the id of
the larger node (nodeSize 18, text Hello world) although the larger node's
text contains the smaller node's text and both have a child: the spec, its
worked example, and the claim require keeping the larger node and deleting
the smaller one. The source selects deleteNode as the larger of the two
occurrences, so the containment test is evaluated the wrong way round and
the delete branch cannot fire on genuine continuation fragments. -/
theorem C1_dedupe_behavior :
    dedupeDecision exDupOld exDupNew = (DedupeOp.changeId 20, exDupOld)
      ∧ exDupOld.nodeSize < exDupNew.nodeSize
      ∧ strIncludes exDupNew.textContent exDupOld.textContent = true
      ∧ 0 < exDupOld.childCount := by
  decide

/-- Counterexample to C4 as stated: the last page opens with a
continuation-flagged NodeExtend block while the previous page ends in a
paragraph, so the two children are not of matching kind, yet the merge
loop chooses join depth 2 because the child's type name contains
"Extend". The claim allowed depth 2 only for matching kinds. -/
theorem C4_counterexample :
    mergeJoinDepth exDoc4 = 2
      ∧ ¬((((PMNode.childrenL exDoc4)[1]?).bind PMNode.firstChildN).map PMNode.typeName
          = (((PMNode.childrenL exDoc4)[0]?).bind PMNode.lastChildN).map PMNode.typeName) := by
  decide

/-- C4 (corrected). With at least two pages, one merge iteration chooses
join depth 2 exactly when the last page's first child carries the
continuation flag and either matches the previous page's last child in
kind or has a type name containing "Extend" (the machine-generated
continuation types); in every other case, depth 1. -/
theorem C4_join_depth (nm : String) (ex : Bool) (pages : List PMNode)
    (h2 : 2 ≤ pages.length) :
    mergeJoinDepth (PMNode.node nm ex pages) = 2
      ↔ ∃ fc, (pages[pages.length - 1]?).bind PMNode.firstChildN = some fc
          ∧ fc.extendA = true
          ∧ (((pages[pages.length - 2]?).bind PMNode.lastChildN).map PMNode.typeName
                = some fc.typeName
              ∨ nameContainsExtend fc.typeName = true) := by
  rw [mergeJoinDepth]
  rw [if_pos h2]
  dsimp only
  cases hfc : (pages[pages.length - 1]?).bind PMNode.firstChildN with
  | none =>
    simp only [hfc]
    constructor
    · intro h
      cases h
    · intro ⟨fc, hsome, _⟩
      cases hsome
  | some f =>
    simp only [hfc]
    constructor
    · intro h
      by_cases hc :
          ((decide (((pages[pages.length - 2]?).bind PMNode.lastChildN).map PMNode.typeName
              = some f.typeName) || nameContainsExtend f.typeName) && f.extendA) = true
      · refine ⟨f, rfl, ?_, ?_⟩
        · exact (Bool.and_eq_true _ _ ▸ hc).2
        · rcases Bool.or_eq_true _ _ |>.mp (Bool.and_eq_true _ _ ▸ hc).1 with hd | hd
          · exact Or.inl (of_decide_eq_true hd)
          · exact Or.inr hd
      · rw [if_neg hc] at h
        cases h
    · intro ⟨fc, hsome, hext, hor⟩
      have hf : fc = f := by
        cases hsome
        rfl
      subst hf
      have hc :
          ((decide (((pages[pages.length - 2]?).bind PMNode.lastChildN).map PMNode.typeName
              = some fc.typeName) || nameContainsExtend fc.typeName) && fc.extendA) = true := by
        rw [Bool.and_eq_true]
        refine ⟨?_, hext⟩
        rw [Bool.or_eq_true]
        rcases hor with hd | hd
        · exact Or.inl (decide_eq_true hd)
        · exact Or.inr hd
      rw [if_pos hc]

/-- Witness for C4_join_depth: two pages whose boundary children are both
paragraphs, the later one continuation-flagged; the instantiated rule is a
true biconditional at this document. -/
theorem C4_join_depth_witness :
    mergeJoinDepth (PMNode.node "doc" false (PMNode.childrenL exDoc4w)) = 2
      ↔ ∃ fc, ((PMNode.childrenL exDoc4w)[(PMNode.childrenL exDoc4w).length - 1]?).bind
            PMNode.firstChildN = some fc
          ∧ fc.extendA = true
          ∧ ((((PMNode.childrenL exDoc4w)[(PMNode.childrenL exDoc4w).length - 2]?).bind
                PMNode.lastChildN).map PMNode.typeName = some fc.typeName
              ∨ nameContainsExtend fc.typeName = true) :=
  C4_join_depth "doc" false (PMNode.childrenL exDoc4w) (by decide)

/-- Counterexample to C5 as stated: an overflowing paragraph that is the
first child of the first page, with no interior break available. The claim
says the boundary is then set one ancestor level up (here position 0,
depth 0), but the source requires the parent-level path position to be a
truthy number, and that position is 0 for the first page, so no boundary
is set at all. -/
theorem C5_counterexample :
    SplitCtxM.isOverflow ⟨doc1, 100, 0, 20, none⟩ 150 = true
      ∧ (paragraphComputed ⟨doc1, 100, 0, 20, none⟩ 150 none 1 true).1.pageBoundary = none := by
  decide

/-- C5 (corrected). For an overflowing paragraph with no usable interior
break point: when it is not the first child of its container the boundary
is set at the paragraph's own position with depth one less than the
resolved path length; when it is the first child, the boundary moves to
the parent level, position and depth two levels up, but only when that
parent-level path entry exists and its recorded position is non-zero —
otherwise the boundary is left untouched. -/
theorem C5_paragraph_boundary (ctx : SplitCtxM) (pHeight : Int) (breakOracle : Option Nat)
    (pos : Nat) (isFirstChild : Bool)
    (hov : ctx.isOverflow pHeight = true)
    (hnb : jsTruthyNat (if ctx.paragraphDefaultHeight < pHeight then breakOracle else none)
        = false) :
    (isFirstChild = false →
      (paragraphComputed ctx pHeight breakOracle pos isFirstChild).1.pageBoundary =
        some ⟨pos, (ctx.splitResolve pos).length - 1⟩)
    ∧ (isFirstChild = true →
      (paragraphComputed ctx pHeight breakOracle pos isFirstChild).1.pageBoundary =
        match (if 2 ≤ (ctx.splitResolve pos).length then
                 (ctx.splitResolve pos)[(ctx.splitResolve pos).length - 2]? else none) with
        | some ch =>
          if ch.posBefore != 0 then some ⟨ch.posBefore, (ctx.splitResolve pos).length - 2⟩
          else ctx.pageBoundary
        | none => ctx.pageBoundary) := by
  constructor
  · intro hfc
    subst hfc
    rw [paragraphComputed, hov]
    simp only [hnb]
    simp [SplitCtxM.setBoundary]
  · intro hfc
    subst hfc
    rw [paragraphComputed, hov]
    simp only [hnb]
    cases hch : (if 2 ≤ (ctx.splitResolve pos).length then
        (ctx.splitResolve pos)[(ctx.splitResolve pos).length - 2]? else none) with
    | none => simp
    | some ch =>
      rcases Bool.eq_false_or_eq_true (ch.posBefore != 0) with hz | hz <;>
        simp [hz, SplitCtxM.setBoundary]

/-- Witness for C5_paragraph_boundary: the second paragraph of a page
(position 4, not a first child) overflowing with no break point gets the
boundary at its own position, depth equal to path length minus one. -/
theorem C5_paragraph_boundary_witness :
    (paragraphComputed ⟨doc2, 10, 0, 2, none⟩ 50 none 4 false).1.pageBoundary = some ⟨4, 1⟩ := by
  have h := (C5_paragraph_boundary ⟨doc2, 10, 0, 2, none⟩ 50 none 4 false
    (by decide) (by decide)).1 rfl
  rw [h]
  decide

/-- Counterexample to C6 as stated: the first page is empty and the
pre-edit first page had content, so the repair fires — but the paragraph
is inserted at doc.content.size - 1, the end of the LAST page, and with a
second page present the leading page stays truly empty (its content size
is still 0 while the document grew by the inserted paragraph). -/
theorem C6_counterexample :
    emptyFirstCond exDoc6 = true
      ∧ prevFirstCond exPrev6 = true
      ∧ ((runFinalStep exDoc6 exPrev6).firstChildN.map PMNode.contentSize) = some 0
      ∧ (runFinalStep exDoc6 exPrev6).contentSize = exDoc6.contentSize + 2 := by
  decide

/-- C6 (corrected). When the current first page is empty and the pre-edit
first page was not, the repair inserts an empty paragraph at position
doc.content.size - 1, the end of the last page; only when the document
consists of a single page does this make the leading page non-empty. -/
theorem C6_empty_page_repair (trDoc prevDoc : PMNode)
    (h1 : emptyFirstCond trDoc = true) (h2 : prevFirstCond prevDoc = true) :
    runFinalStep trDoc prevDoc = insertAt trDoc (trDoc.contentSize - 1) emptyParagraphM
      ∧ (∀ nm ex pnm pex pcs, trDoc = PMNode.node nm ex [PMNode.node pnm pex pcs] →
          0 < ((runFinalStep trDoc prevDoc).firstChildN.map PMNode.contentSize).getD 0) := by
  have hcond : (emptyFirstCond trDoc && prevFirstCond prevDoc) = true := by
    rw [h1, h2]
    rfl
  constructor
  · rw [runFinalStep, if_pos hcond]
  · intro nm ex pnm pex pcs heq
    subst heq
    have hfs : fragmentSize pcs = 0 := by
      have : PMNode.contentSize (PMNode.node pnm pex pcs) == 0 := by
        simpa [emptyFirstCond, PMNode.firstChildN] using h1
      simpa [PMNode.contentSize] using this
    rw [runFinalStep, if_pos hcond]
    have hsize : (PMNode.node nm ex [PMNode.node pnm pex pcs]).contentSize = 2 := by
      simp [PMNode.contentSize, fragmentSize, PMNode.nodeSize, hfs]
    rw [hsize]
    rw [insertAt, insertIntoNode, insertAtFragment]
    rw [if_neg (by omega)]
    rw [if_pos (by simp [PMNode.nodeSize, hfs])]
    cases pcs with
    | nil => simp [insertIntoNode, insertAtFragment, PMNode.firstChildN, PMNode.contentSize,
        fragmentSize, emptyParagraphM, PMNode.nodeSize]
    | cons c rest => simp [insertIntoNode, insertAtFragment, PMNode.firstChildN,
        PMNode.contentSize, fragmentSize, emptyParagraphM, PMNode.nodeSize]

/-- Witness for C6_empty_page_repair: a single-page empty document whose
pre-edit version had content receives the paragraph inside that page, so
the leading page ends up non-empty. -/
theorem C6_empty_page_repair_witness :
    0 < ((runFinalStep exW6 exPrev6).firstChildN.map PMNode.contentSize).getD 0 :=
  (C6_empty_page_repair exW6 exPrev6 (by decide) (by decide)).2 "doc" false "page" false [] rfl

/-- Counterexample to C3 as stated: splitting the outer ordered list of
exDoc3 just before its second item (position 19). The list being split has
exactly one of its own items before the cut, so the claim demands a start
of 2, but calculateOrderedListStart also counts the two items of the
nested ordered list inside the first item and returns 4. -/
theorem C3_counterexample :
    calculateOrderedListStart exDoc3 19 = 4
      ∧ ((childPositions (PMNode.childrenL exOL) 2).filter (fun it =>
            it.1.typeName == "listItem" && decide (it.2 < 19))).length + 1 = 2 := by
  decide

/-- C3 (corrected). calculateOrderedListStart returns 1 when the split
position has no enclosing ordered list; otherwise it returns one plus the
number of listItem descendants preceding the cut that sit inside ANY
ordered list — items of nested or earlier sibling ordered lists included,
not just items of the logical list being split — counted from the
document start when the enclosing list is a continuation (extend), and
from the walked-back sequence origin otherwise. -/
theorem C3_ordered_list_start (doc : PMNode) (splitPos : Nat) :
    calculateOrderedListStart doc splitPos =
      match findParentOL doc splitPos with
      | none => 1
      | some (ol, olStart) =>
        1 + (doc.descendantsWithPos).countP (fun it =>
          it.1.typeName == "listItem"
            && decide ((if ol.extendA then 0 else walkBack doc (olStart + 1) olStart) ≤ it.2)
            && decide (it.2 < splitPos) && hasOrderedListAncestor doc it.2) := by
  cases hp : findParentOL doc splitPos with
  | none => simp [calculateOrderedListStart, hp]
  | some p =>
    obtain ⟨ol, olStart⟩ := p
    by_cases hext : ol.extendA = true
    · simp [calculateOrderedListStart, hp, hext, countOLItems,
        List.countP_eq_length_filter, Nat.add_comm]
    · simp [calculateOrderedListStart, hp, hext, countOLItems,
        List.countP_eq_length_filter, Nat.add_comm]
